import Mathlib

/-!
Verification of the `cloud-transcripts` worker (`src/apps/worker/main.py`,
`src/apps/worker/utils.py`) against its natural-language specification.

The Python code is shallowly embedded: float seconds become `ℚ`, Python dicts
with optional keys become structures with `Option` fields, raised exceptions
become an explicit error type, and the external collaborators (S3, ffmpeg,
WhisperX models, the HTTP client, the HMAC primitive) become oracle
parameters.  Every definition is translated from the source; the few
spec-side definitions used for comparison are clearly marked.
-/

namespace Worker

deriving instance DecidableEq for Except

/-! ## Python primitives used by the worker -/

/-- The whitespace set of Python's `str.strip()` (ASCII part). -/
def pyIsSpace (c : Char) : Bool :=
  c = ' ' || c = '\t' || c = '\n' || c = '\r' || c = '\x0b' || c = '\x0c'

/-- Python `s.strip()`. -/
def pyStrip (s : String) : String :=
  ⟨((s.data.dropWhile pyIsSpace).reverse.dropWhile pyIsSpace).reverse⟩

/-- Python `s.rstrip("/")`. -/
def pyRstripSlash (s : String) : String :=
  ⟨(s.data.reverse.dropWhile (· = '/')).reverse⟩

/-- Decimal digit character. -/
def digitChar (d : Nat) : Char := Char.ofNat (48 + d)

/-- Fuel-driven decimal digit list (most significant first). -/
def natDigitsGo : Nat → Nat → List Char
  | 0, _ => []
  | f + 1, n =>
    if n < 10 then [digitChar n]
    else natDigitsGo f (n / 10) ++ [digitChar (n % 10)]

/-- Decimal representation of a natural number, as printed by Python. -/
def natRepr (n : Nat) : String := ⟨natDigitsGo (n + 1) n⟩

/-- Python `f"{i:02d}"`: zero-pad to width 2 (sign included in the width). -/
def intPad2 (i : Int) : String :=
  if i < 0 then "-" ++ natRepr i.natAbs
  else if i.toNat < 10 then "0" ++ natRepr i.toNat
  else natRepr i.toNat

/-- Python `int(x)` on a real value: truncation toward zero. -/
def pyInt (x : ℚ) : Int := if 0 ≤ x then ⌊x⌋ else -⌊-x⌋

/-- Python `x // y` on reals (floor division). -/
def pyFloorDiv (x y : ℚ) : ℚ := ⌊x / y⌋

/-- Python `x % y` on reals (result has the sign of `y`). -/
def pyMod (x y : ℚ) : ℚ := x - y * ⌊x / y⌋

/-! ## `utils.format_timestamp`

```python
def format_timestamp(seconds: float) -> str:
    td = datetime.timedelta(seconds=seconds)
    minutes = int(td.total_seconds() // 60)
    seconds = int(td.total_seconds() % 60)
    return f"{minutes:02d}:{seconds:02d}"
```
`timedelta` round-trips the value, so `td.total_seconds()` is the input. -/

def format_timestamp (t : ℚ) : String :=
  intPad2 (pyInt (pyFloorDiv t 60)) ++ ":" ++ intPad2 (pyInt (pyMod t 60))

/-! ## Data model of the WhisperX transcript JSON -/

/-- A word entry of a segment.  All keys are read with `.get`, so each is
optional; `start` defaults to `0`, `speaker` to `"UNKNOWN"`, `text` to `""`. -/
structure Word where
  speaker : Option String := none
  text : Option String := none
  start : Option ℚ := none
deriving DecidableEq

/-- A segment of the transcript.  The renderer reads `words` (via
`.get("words", [])`, so a missing key and an empty list coincide) and, for the
last segment only, the mandatory key `end` (called `stop` here because `end`
is reserved).  `start`, `text` and `speaker` are carried by the JSON but never
read by the renderer. -/
structure Segment where
  start : ℚ := 0
  stop : ℚ := 0
  text : Option String := none
  speaker : Option String := none
  words : List Word := []
deriving DecidableEq

/-- The transcript JSON handed to `write_markdown`. -/
structure Transcript where
  segments : List Segment := []
  language : Option String := none
deriving DecidableEq

/-! ## `utils.write_markdown`

The loop state of the dialogue pass and its per-word step, translated from
the `for word in words` body.  A flushed paragraph is appended to the output
as `"\n[{timestamp}] {speaker_label}: {paragraph_text}\n"`; we keep the core
`"[{timestamp}] {speaker_label}: {paragraph_text}"` in `paras` and wrap it in
the two newlines when the document is assembled. -/

structure RState where
  current_speaker : Option String := none
  current_paragraph : List String := []
  current_start_time : Option ℚ := none
  paras : List String := []
deriving DecidableEq

/-- Translation of `f"**{current_speaker}**" if current_speaker else "**UNKNOWN**"`:
`None` and `""` are falsy. -/
def speaker_label : Option String → String
  | some s => if s = "" then "**UNKNOWN**" else "**" ++ s ++ "**"
  | none => "**UNKNOWN**"

/-- The paragraph core flushed when a paragraph is closed
(`if current_paragraph and current_start_time is not None`). -/
def flushPara (st : RState) : List String :=
  match st.current_start_time with
  | none => []
  | some t0 =>
    if st.current_paragraph = [] then []
    else ["[" ++ format_timestamp t0 ++ "] " ++ speaker_label st.current_speaker
            ++ ": " ++ String.intercalate " " st.current_paragraph]

/-- One iteration of the word loop. -/
def processWord (st : RState) (w : Word) : RState :=
  let speaker := w.speaker.getD "UNKNOWN"
  let text := pyStrip (w.text.getD "")
  let start := w.start.getD 0
  if text = "" then st
  else if some speaker ≠ st.current_speaker then
    { current_speaker := some speaker
      current_paragraph := [text]
      current_start_time := some start
      paras := st.paras ++ flushPara st }
  else { st with current_paragraph := st.current_paragraph ++ [text] }

/-- The nested `for segment in segments: for word in words:` loop. -/
def loopSegments (st : RState) (segs : List Segment) : RState :=
  segs.foldl (fun st seg => seg.words.foldl processWord st) st

/-- The dialogue paragraphs of the document: loop over all segments, then
flush the final paragraph. -/
def turnCores (segs : List Segment) : List String :=
  let st := loopSegments {} segs
  st.paras ++ flushPara st

/-- Translation of `f"- Duration: {format_timestamp(segments[-1]['end']) if segments else 'N/A'}\n"`. -/
def durationField (segs : List Segment) : String :=
  match segs.getLast? with
  | some s => format_timestamp s.stop
  | none => "N/A"

/-- The metadata section appended after the dialogue. -/
def metaLines (t : Transcript) : List String :=
  ["\n---\n",
   "\n## Metadata\n",
   "- Total segments: " ++ natRepr t.segments.length ++ "\n",
   "- Duration: " ++ durationField t.segments ++ "\n",
   "- Language: " ++ t.language.getD "N/A" ++ "\n"]

/-- Translation of `write_markdown`, returning the text written to the output file:
`"\n".join(markdown_lines)` where `markdown_lines` is the header, the flushed
dialogue paragraphs (each `"\n" + core + "\n"`), and the metadata lines. -/
def write_markdown (t : Transcript) : String :=
  String.intercalate "\n"
    (["# Transcript\n"]
      ++ (turnCores t.segments).map (fun c => "\n" ++ c ++ "\n")
      ++ metaLines t)

/-! ## Lines of a document

`splitNl` is the line decomposition of a character list (what Python's
`str.splitlines` / a text editor shows): `n` newline characters yield `n + 1`
chunks.  It is the vocabulary in which the blank-line properties of the
renderer are stated. -/

def splitNl : List Char → List (List Char)
  | [] => [[]]
  | c :: cs =>
    if c = '\n' then [] :: splitNl cs
    else
      match splitNl cs with
      | [] => [[c]]
      | l :: ls => (c :: l) :: ls

/-- The lines of a string. -/
def docLines (s : String) : List String := (splitNl s.data).map fun l => ⟨l⟩

theorem splitNl_ne_nil : ∀ cs : List Char, splitNl cs ≠ []
  | [] => by simp [splitNl]
  | c :: cs => by
    unfold splitNl
    by_cases h : c = '\n'
    · simp [h]
    · simp only [h, if_false]
      cases hs : splitNl cs <;> simp

/-- Gluing of two line decompositions: the last chunk of the first meets the
first chunk of the second. -/
def glueNl : List (List Char) → List (List Char) → List (List Char)
  | [], bs => bs
  | [a], [] => [a]
  | [a], b :: bs => (a ++ b) :: bs
  | a :: a' :: as, bs => a :: glueNl (a' :: as) bs

theorem glueNl_cons_of_ne_nil (a : List Char) (as bs : List (List Char))
    (h : as ≠ []) : glueNl (a :: as) bs = a :: glueNl as bs := by
  cases as with
  | nil => exact absurd rfl h
  | cons x xs => rfl

theorem splitNl_cons_newline (cs : List Char) :
    splitNl ('\n' :: cs) = [] :: splitNl cs := by
  simp [splitNl]

theorem splitNl_cons_of_ne (c : Char) (cs : List Char) (h : c ≠ '\n') :
    splitNl (c :: cs)
      = match splitNl cs with
        | [] => [[c]]
        | l :: ls => (c :: l) :: ls := by
  simp [splitNl, h]

theorem splitNl_append : ∀ a b : List Char,
    splitNl (a ++ b) = glueNl (splitNl a) (splitNl b) := by
  intro a
  induction a with
  | nil =>
    intro b
    simp only [List.nil_append, splitNl]
    cases hb : splitNl b with
    | nil => exact absurd hb (splitNl_ne_nil b)
    | cons x xs => simp [glueNl]
  | cons c cs ih =>
    intro b
    by_cases h : c = '\n'
    · subst h
      rw [List.cons_append, splitNl_cons_newline, splitNl_cons_newline,
        glueNl_cons_of_ne_nil _ _ _ (splitNl_ne_nil cs), ih b]
    · rw [List.cons_append, splitNl_cons_of_ne _ _ h, splitNl_cons_of_ne _ _ h, ih b]
      cases ha : splitNl cs with
      | nil => exact absurd ha (splitNl_ne_nil cs)
      | cons x xs =>
        cases xs with
        | nil =>
          cases hb : splitNl b with
          | nil => exact absurd hb (splitNl_ne_nil b)
          | cons y ys => simp [glueNl]
        | cons x' xs' => simp [glueNl]

theorem glueNl_nil_head : ∀ as bs : List (List Char), as ≠ [] →
    glueNl as ([] :: bs) = as ++ bs := by
  intro as
  induction as with
  | nil => intro bs h; exact absurd rfl h
  | cons a as ih =>
    intro bs _
    cases as with
    | nil => simp [glueNl]
    | cons a' as' =>
      rw [glueNl_cons_of_ne_nil _ _ _ (by simp), ih _ (by simp)]
      rfl

/-- A newline splices line decompositions. -/
theorem splitNl_newline (a b : List Char) :
    splitNl (a ++ '\n' :: b) = splitNl a ++ splitNl b := by
  rw [splitNl_append]
  have h : splitNl ('\n' :: b) = [] :: splitNl b := by simp [splitNl]
  rw [h, glueNl_nil_head _ _ (splitNl_ne_nil a)]

/-- A string with no newline character is a single line. -/
theorem splitNl_of_nlFree : ∀ a : List Char, (∀ c ∈ a, c ≠ '\n') →
    splitNl a = [a] := by
  intro a
  induction a with
  | nil => intro _; rfl
  | cons c cs ih =>
    intro h
    have hc : c ≠ '\n' := h c (by simp)
    simp only [splitNl, hc, if_false, ih fun x hx => h x (by simp [hx])]

/-- Behaviour of `String.intercalate.go` at separator `"\n"`, on the character level. -/
theorem intercalate_go_data : ∀ (es : List String) (acc : String),
    (String.intercalate.go acc "\n" es).data
      = acc.data ++ es.flatMap fun x => '\n' :: x.data := by
  intro es
  induction es with
  | nil => intro acc; simp [String.intercalate.go]
  | cons a as ih =>
    intro acc
    simp [String.intercalate.go, ih, String.data_append]

theorem splitNl_flat : ∀ (es : List String) (a : List Char),
    splitNl (a ++ es.flatMap fun x => '\n' :: x.data)
      = splitNl a ++ es.flatMap fun x => splitNl x.data := by
  intro es
  induction es with
  | nil => intro a; simp
  | cons x xs ih =>
    intro a
    have h : a ++ ((x :: xs).flatMap fun x => '\n' :: x.data)
        = a ++ '\n' :: (x.data ++ xs.flatMap fun x => '\n' :: x.data) := by
      simp
    rw [h, splitNl_newline, ih]
    simp [List.append_assoc]

/-- The lines of `"\n".join(e :: es)` are the concatenated lines of the
entries. -/
theorem splitNl_intercalate (e : String) (es : List String) :
    splitNl (String.intercalate "\n" (e :: es)).data
      = splitNl e.data ++ es.flatMap fun x => splitNl x.data := by
  show splitNl (String.intercalate.go e "\n" es).data = _
  rw [intercalate_go_data, splitNl_flat]

/-! ### Newline-freeness -/

/-- No newline character occurs in the string. -/
def nlFree (s : String) : Prop := ∀ c ∈ s.data, c ≠ '\n'

instance (s : String) : Decidable (nlFree s) := by
  unfold nlFree; infer_instance

theorem nlFree_append {a b : String} (ha : nlFree a) (hb : nlFree b) :
    nlFree (a ++ b) := by
  intro c hc
  rw [String.data_append] at hc
  rcases List.mem_append.1 hc with h | h
  · exact ha c h
  · exact hb c h

theorem nlFree_digits : ∀ (fuel n : Nat), ∀ c ∈ natDigitsGo fuel n, c ≠ '\n' := by
  intro fuel
  induction fuel with
  | zero => intro n c hc; simp [natDigitsGo] at hc
  | succ f ih =>
    intro n c hc
    have hdig : ∀ d : Fin 10, digitChar d.val ≠ '\n' := by decide
    unfold natDigitsGo at hc
    by_cases h : n < 10
    · simp only [h, if_true, List.mem_singleton] at hc
      subst hc; exact hdig ⟨n, h⟩
    · simp only [h, if_false, List.mem_append, List.mem_singleton] at hc
      rcases hc with h1 | h1
      · exact ih _ c h1
      · subst h1; exact hdig ⟨n % 10, Nat.mod_lt _ (by omega)⟩

theorem nlFree_natRepr (n : Nat) : nlFree (natRepr n) := by
  intro c hc
  exact nlFree_digits (n + 1) n c hc

theorem nlFree_intPad2 (i : Int) : nlFree (intPad2 i) := by
  unfold intPad2
  split
  · exact nlFree_append (by decide) (nlFree_natRepr _)
  · split
    · exact nlFree_append (by decide) (nlFree_natRepr _)
    · exact nlFree_natRepr _

theorem nlFree_format_timestamp (t : ℚ) : nlFree (format_timestamp t) := by
  unfold format_timestamp
  exact nlFree_append (nlFree_append (nlFree_intPad2 _) (by decide)) (nlFree_intPad2 _)

theorem nlFree_pyStrip (s : String) (h : nlFree s) : nlFree (pyStrip s) := by
  intro c hc
  apply h
  unfold pyStrip at hc
  simp only at hc
  have h1 := List.mem_reverse.1 hc
  have h2 := List.dropWhile_sublist (l := (s.data.dropWhile pyIsSpace).reverse) (p := pyIsSpace)
  have h3 := h2.mem h1
  have h4 := List.mem_reverse.1 h3
  exact (List.dropWhile_sublist _).mem h4

theorem nlFree_intercalate_go_space : ∀ (bs : List String) (a : String),
    nlFree a → (∀ x ∈ bs, nlFree x) → nlFree (String.intercalate.go a " " bs) := by
  intro bs
  induction bs with
  | nil => intro a ha _; exact ha
  | cons b bs ih =>
    intro a ha h
    show nlFree (String.intercalate.go (a ++ " " ++ b) " " bs)
    exact ih _ (nlFree_append (nlFree_append ha (by decide)) (h b (by simp)))
      fun x hx => h x (by simp [hx])

theorem nlFree_intercalate_space (l : List String) (h : ∀ x ∈ l, nlFree x) :
    nlFree (String.intercalate " " l) := by
  cases l with
  | nil => intro c hc; simp [String.intercalate] at hc
  | cons a as =>
    exact nlFree_intercalate_go_space as a (h a (by simp)) fun x hx => h x (by simp [hx])

/-! ## Structure of the flushed dialogue paragraphs -/

/-- All word entries of a segment list, in order. -/
def flatWords (segs : List Segment) : List Word := segs.flatMap Segment.words

theorem loopSegments_eq_foldl (segs : List Segment) (st : RState) :
    loopSegments st segs = (flatWords segs).foldl processWord st := by
  induction segs generalizing st with
  | nil => rfl
  | cons s ss ih =>
    simp only [loopSegments, List.foldl_cons, flatWords, List.flatMap_cons,
      List.foldl_append] at *
    exact ih _

/-- The dialogue pass reads nothing but the flattened word list. -/
theorem turnCores_eq_flatWords (segs : List Segment) :
    turnCores segs =
      (let st := (flatWords segs).foldl processWord {}
       st.paras ++ flushPara st) := by
  simp only [turnCores, loopSegments_eq_foldl]

/-- What a flushed dialogue paragraph can look like, in terms of a word list
`ws` it was built from: a timestamp, a speaker label that is either the
initial `None` or derived from some word's speaker, and a nonempty list of
stripped word texts. -/
def CoreShaped (ws : List Word) (core : String) : Prop :=
  ∃ t0 sp txts,
    core = "[" ++ format_timestamp t0 ++ "] " ++ speaker_label sp ++ ": "
             ++ String.intercalate " " txts
    ∧ txts ≠ []
    ∧ (∀ x ∈ txts, ∃ w ∈ ws, x = pyStrip (w.text.getD ""))
    ∧ (sp = none ∨ ∃ w ∈ ws, sp = some (w.speaker.getD "UNKNOWN"))

/-- Invariant carried through the word loop. -/
def InvShape (ws : List Word) (st : RState) : Prop :=
  (∀ core ∈ st.paras, CoreShaped ws core)
  ∧ (∀ x ∈ st.current_paragraph, ∃ w ∈ ws, x = pyStrip (w.text.getD ""))
  ∧ (st.current_speaker = none
      ∨ ∃ w ∈ ws, st.current_speaker = some (w.speaker.getD "UNKNOWN"))

theorem mem_flushPara {st : RState} {core : String} (h : core ∈ flushPara st) :
    ∃ t0, st.current_start_time = some t0 ∧ st.current_paragraph ≠ []
      ∧ core = "[" ++ format_timestamp t0 ++ "] " ++ speaker_label st.current_speaker
                 ++ ": " ++ String.intercalate " " st.current_paragraph := by
  unfold flushPara at h
  cases hst : st.current_start_time with
  | none => rw [hst] at h; simp at h
  | some t0 =>
    rw [hst] at h
    by_cases hp : st.current_paragraph = []
    · simp [hp] at h
    · simp only [hp, if_false, List.mem_singleton] at h
      exact ⟨t0, rfl, hp, h⟩

theorem invShape_flush {ws : List Word} {st : RState} (h : InvShape ws st) :
    ∀ core ∈ st.paras ++ flushPara st, CoreShaped ws core := by
  intro core hc
  rcases List.mem_append.1 hc with h1 | h1
  · exact h.1 core h1
  · rcases mem_flushPara h1 with ⟨t0, _, hp, hcore⟩
    exact ⟨t0, st.current_speaker, st.current_paragraph, hcore, hp, h.2.1, h.2.2⟩

/-- Unfolding of `processWord` with the `let` bindings inlined. -/
theorem processWord_def (st : RState) (w : Word) :
    processWord st w =
      if pyStrip (w.text.getD "") = "" then st
      else if some (w.speaker.getD "UNKNOWN") ≠ st.current_speaker then
        { current_speaker := some (w.speaker.getD "UNKNOWN")
          current_paragraph := [pyStrip (w.text.getD "")]
          current_start_time := some (w.start.getD 0)
          paras := st.paras ++ flushPara st }
      else { st with current_paragraph := st.current_paragraph ++ [pyStrip (w.text.getD "")] } :=
  rfl

theorem invShape_step {ws : List Word} {st : RState} {w : Word} (hw : w ∈ ws)
    (h : InvShape ws st) : InvShape ws (processWord st w) := by
  obtain ⟨hparas, hpar, hsp⟩ := h
  rw [processWord_def]
  by_cases h1 : pyStrip (w.text.getD "") = ""
  · simpa [h1] using ⟨hparas, hpar, hsp⟩
  · simp only [h1, if_false]
    by_cases h2 : some (w.speaker.getD "UNKNOWN") ≠ st.current_speaker
    · rw [if_pos h2]
      refine ⟨invShape_flush ⟨hparas, hpar, hsp⟩, ?_, Or.inr ⟨w, hw, rfl⟩⟩
      intro x hx
      rw [List.mem_singleton] at hx
      exact ⟨w, hw, hx⟩
    · rw [if_neg h2]
      refine ⟨hparas, ?_, hsp⟩
      intro x hx
      rcases List.mem_append.1 hx with h3 | h3
      · exact hpar x h3
      · rw [List.mem_singleton] at h3
        exact ⟨w, hw, h3⟩

theorem invShape_fold {ws : List Word} : ∀ (l : List Word) (st : RState),
    (∀ w ∈ l, w ∈ ws) → InvShape ws st → InvShape ws (l.foldl processWord st) := by
  intro l
  induction l with
  | nil => intro st _ h; exact h
  | cons w l ih =>
    intro st hl h
    exact ih _ (fun x hx => hl x (by simp [hx])) (invShape_step (hl w (by simp)) h)

/-- Every paragraph of the dialogue pass is a timestamped, labeled join of
stripped word texts from the input. -/
theorem turnCores_shaped (segs : List Segment) :
    ∀ core ∈ turnCores segs, CoreShaped (flatWords segs) core := by
  have h0 : InvShape (flatWords segs) {} := by
    refine ⟨?_, ?_, Or.inl rfl⟩ <;> simp
  have h := invShape_fold (flatWords segs) {} (fun w hw => hw) h0
  rw [turnCores_eq_flatWords]
  exact invShape_flush h

/-- A word whose stripped text is empty is skipped outright. -/
theorem processWord_blank {w : Word} (h : pyStrip (w.text.getD "") = "")
    (st : RState) : processWord st w = st := by
  rw [processWord_def, if_pos h]

/-- Dropping the empty-stripped words changes nothing about the loop. -/
theorem foldl_processWord_filter : ∀ (ws : List Word) (st : RState),
    (ws.filter fun w => pyStrip (w.text.getD "") ≠ "").foldl processWord st
      = ws.foldl processWord st := by
  intro ws
  induction ws with
  | nil => intro st; rfl
  | cons w ws ih =>
    intro st
    by_cases h : pyStrip (w.text.getD "") = ""
    · rw [List.foldl_cons, processWord_blank h,
        List.filter_cons_of_neg (by simpa using h), ih]
    · rw [List.foldl_cons, List.filter_cons_of_pos (by simpa using h), List.foldl_cons, ih]

/-- A segment with no word entries contributes nothing to the dialogue. -/
theorem turnCores_wordless (segs1 segs2 : List Segment) (s : Segment)
    (h : s.words = []) :
    turnCores (segs1 ++ s :: segs2) = turnCores (segs1 ++ segs2) := by
  rw [turnCores_eq_flatWords, turnCores_eq_flatWords]
  have hw : flatWords (segs1 ++ s :: segs2) = flatWords (segs1 ++ segs2) := by
    simp [flatWords, h]
  rw [hw]

theorem flushPara_length (st : RState) : (flushPara st).length ≤ 1 := by
  unfold flushPara
  cases st.current_start_time with
  | none => simp
  | some t0 =>
    by_cases h : st.current_paragraph = [] <;> simp [h]

/-- With a single speaker throughout, the dialogue pass merges everything
into at most one paragraph: no separator is ever emitted between
same-speaker words or segments. -/
theorem turnCores_single_speaker (segs : List Segment) (s : String)
    (h : ∀ w ∈ flatWords segs, w.speaker = some s) :
    (turnCores segs).length ≤ 1 := by
  rw [turnCores_eq_flatWords]
  have key : ∀ (l : List Word) (st : RState), (∀ w ∈ l, w.speaker = some s) →
      st.paras = [] →
      (st.current_speaker = none ∧ st.current_start_time = none
        ∨ st.current_speaker = some s) →
      (l.foldl processWord st).paras = [] := by
    intro l
    induction l with
    | nil => intro st _ h1 _; exact h1
    | cons w l ih =>
      intro st hl h1 h2
      rw [List.foldl_cons]
      have hws : w.speaker = some s := hl w (by simp)
      by_cases hb : pyStrip (w.text.getD "") = ""
      · rw [processWord_blank hb]
        exact ih st (fun x hx => hl x (by simp [hx])) h1 h2
      · rcases h2 with ⟨h2, h3⟩ | h2
        · have hne : some (w.speaker.getD "UNKNOWN") ≠ st.current_speaker := by
            rw [h2]; simp
          rw [processWord_def, if_neg hb, if_pos hne]
          refine ih _ (fun x hx => hl x (by simp [hx])) ?_ (Or.inr (by simp [hws]))
          simp [h1, flushPara, h3]
        · have heq : some (w.speaker.getD "UNKNOWN") = st.current_speaker := by
            rw [h2]; simp [hws]
          rw [processWord_def, if_neg hb, if_neg (by simpa using heq)]
          exact ih _ (fun x hx => hl x (by simp [hx])) h1 (Or.inr h2)
  have hp : ((flatWords segs).foldl processWord {}).paras = [] :=
    key (flatWords segs) {} h rfl (Or.inl ⟨rfl, rfl⟩)
  simp only [hp, List.nil_append]
  exact flushPara_length _

theorem string_append_assoc (a b c : String) : a ++ b ++ c = a ++ (b ++ c) := by
  cases a; cases b; cases c
  show String.mk _ = String.mk _
  simp [String.append, List.append_assoc]

/-- When no word carries a speaker, every dialogue paragraph is labeled
`**UNKNOWN**`. -/
theorem turnCores_unknown (segs : List Segment)
    (h : ∀ w ∈ flatWords segs, w.speaker = none) :
    ∀ core ∈ turnCores segs, ∃ t0 txts,
      core = "[" ++ format_timestamp t0 ++ "] **UNKNOWN**: "
               ++ String.intercalate " " txts ∧ txts ≠ [] := by
  intro core hc
  rcases turnCores_shaped segs core hc with ⟨t0, sp, txts, hcore, hne, _, hsp⟩
  have hlab : speaker_label sp = "**UNKNOWN**" := by
    rcases hsp with h1 | ⟨w, hw, h1⟩
    · rw [h1]; rfl
    · rw [h1, h w hw]; rfl
  refine ⟨t0, txts, ?_, hne⟩
  rw [hcore, hlab]
  rw [string_append_assoc ("[" ++ format_timestamp t0) "] " "**UNKNOWN**",
    string_append_assoc ("[" ++ format_timestamp t0) ("] " ++ "**UNKNOWN**") ": ",
    show ("] " ++ "**UNKNOWN**" ++ ": " : String) = "] **UNKNOWN**: " from by decide]

/-- When every word's text and speaker are newline-free, so is every
dialogue paragraph. -/
theorem turnCores_nlFree (segs : List Segment)
    (h : ∀ w ∈ flatWords segs,
      nlFree (w.text.getD "") ∧ nlFree (w.speaker.getD "UNKNOWN")) :
    ∀ core ∈ turnCores segs, nlFree core := by
  intro core hc
  rcases turnCores_shaped segs core hc with ⟨t0, sp, txts, hcore, _, htxts, hsp⟩
  rw [hcore]
  have hlab : nlFree (speaker_label sp) := by
    rcases hsp with h1 | ⟨w, hw, h1⟩
    · rw [h1]; decide
    · rw [h1]
      unfold speaker_label
      by_cases he : w.speaker.getD "UNKNOWN" = ""
      · simp only [he, if_true]; decide
      · simp only [he, if_false]
        exact nlFree_append (nlFree_append (by decide) (h w hw).2) (by decide)
  exact nlFree_append
    (nlFree_append (nlFree_append (nlFree_append (nlFree_append
      (by decide) (nlFree_format_timestamp t0)) (by decide)) hlab) (by decide))
    (nlFree_intercalate_space txts fun x hx => by
      rcases htxts x hx with ⟨w, hw, hxw⟩
      rw [hxw]
      exact nlFree_pyStrip _ (h w hw).1)

/-! ## Line structure of the whole document -/

theorem splitNl_wrap (c : String) (h : nlFree c) :
    splitNl ("\n" ++ c ++ "\n").data = [[], c.data, []] := by
  have hd : ("\n" ++ c ++ "\n").data = '\n' :: (c.data ++ '\n' :: []) := by
    simp [String.data_append]
  rw [hd, splitNl_cons_newline, splitNl_newline, splitNl_of_nlFree c.data h]
  rfl

theorem splitNl_line (s : String) (h : nlFree s) :
    splitNl (s ++ "\n").data = [s.data, []] := by
  have hd : (s ++ "\n").data = s.data ++ '\n' :: [] := by
    simp [String.data_append]
  rw [hd, splitNl_newline, splitNl_of_nlFree s.data h]
  rfl

theorem flatMap_eq_of_mem {α β : Type} {l : List α} {f g : α → List β}
    (h : ∀ x ∈ l, f x = g x) : l.flatMap f = l.flatMap g := by
  induction l with
  | nil => rfl
  | cons x xs ih =>
    rw [List.flatMap_cons, List.flatMap_cons, h x (by simp),
      ih fun y hy => h y (by simp [hy])]

theorem nlFree_durationField (segs : List Segment) : nlFree (durationField segs) := by
  unfold durationField
  cases segs.getLast? with
  | none => decide
  | some s => exact nlFree_format_timestamp _

/-- The rendered document, line by line: the header followed by one empty
line, then each dialogue paragraph preceded by exactly two empty lines (one
from the paragraph's own leading `"\n"`, one from the `"\n".join`) and
followed by one, then the metadata section. -/
theorem splitNl_write_markdown (t : Transcript)
    (hcores : ∀ core ∈ turnCores t.segments, nlFree core)
    (hlang : nlFree (t.language.getD "N/A")) :
    splitNl (write_markdown t).data
      = ["# Transcript".data, []]
        ++ (turnCores t.segments).flatMap (fun c => [[], c.data, []])
        ++ [[], "---".data, [], [], "## Metadata".data, [],
            ("- Total segments: " ++ natRepr t.segments.length).data, [],
            ("- Duration: " ++ durationField t.segments).data, [],
            ("- Language: " ++ t.language.getD "N/A").data, []] := by
  unfold write_markdown
  rw [show (["# Transcript\n"]
        ++ (turnCores t.segments).map (fun c => "\n" ++ c ++ "\n") ++ metaLines t)
      = "# Transcript\n"
        :: ((turnCores t.segments).map (fun c => "\n" ++ c ++ "\n") ++ metaLines t)
      from rfl]
  rw [splitNl_intercalate, List.flatMap_append, List.flatMap_map]
  have h1 : splitNl ("# Transcript\n").data = ["# Transcript".data, []] := by decide
  have h2 : (turnCores t.segments).flatMap (fun c => splitNl ("\n" ++ c ++ "\n").data)
      = (turnCores t.segments).flatMap (fun c => [[], c.data, []]) :=
    flatMap_eq_of_mem fun c hc => splitNl_wrap c (hcores c hc)
  have h3 : (metaLines t).flatMap (fun x => splitNl x.data)
      = [[], "---".data, [], [], "## Metadata".data, [],
         ("- Total segments: " ++ natRepr t.segments.length).data, [],
         ("- Duration: " ++ durationField t.segments).data, [],
         ("- Language: " ++ t.language.getD "N/A").data, []] := by
    unfold metaLines
    rw [List.flatMap_cons, List.flatMap_cons, List.flatMap_cons, List.flatMap_cons,
      List.flatMap_cons, List.flatMap_nil]
    rw [show splitNl ("\n---\n").data = [[], "---".data, []] from by decide,
      show splitNl ("\n## Metadata\n").data = [[], "## Metadata".data, []] from by decide,
      splitNl_line _ (nlFree_append (by decide) (nlFree_natRepr _)),
      splitNl_line _ (nlFree_append (by decide) (nlFree_durationField _)),
      splitNl_line _ (nlFree_append (by decide) hlang)]
    rfl
  rw [h1, h2, h3]
  rfl

/-! ## What `format_timestamp` actually computes -/

/-- Spec-side definition (for comparison): zero-padded `MM:SS` over whole
seconds, with an unbounded minutes field. -/
def specMMSS (n : ℤ) : String := intPad2 (n / 60) ++ ":" ++ intPad2 (n % 60)

/-- Spec-side definition (for comparison), following the spec's words:
"given floating-point seconds `t`, truncate to whole seconds, format as
zero-padded `HH:MM:SS`". -/
def specHMS (t : ℚ) : String :=
  intPad2 (⌊t⌋ / 3600) ++ ":" ++ intPad2 (⌊t⌋ % 3600 / 60) ++ ":" ++ intPad2 (⌊t⌋ % 60)

theorem pyInt_of_nonneg {x : ℚ} (h : 0 ≤ x) : pyInt x = ⌊x⌋ := if_pos h

theorem floor_div_sixty (t : ℚ) : ⌊t / 60⌋ = ⌊t⌋ / 60 := by
  set n := ⌊t⌋ with hn
  have hq : 60 * (n / 60) + n % 60 = n := Int.ediv_add_emod n 60
  have hr0 : 0 ≤ n % 60 := Int.emod_nonneg n (by norm_num)
  have hr1 : n % 60 < 60 := Int.emod_lt_of_pos n (by norm_num)
  have hnle : (n : ℚ) ≤ t := Int.floor_le t
  have hnlt : t < n + 1 := Int.lt_floor_add_one t
  have hqQ : (60 : ℚ) * ((n / 60 : ℤ) : ℚ) + ((n % 60 : ℤ) : ℚ) = (n : ℚ) := by
    exact_mod_cast hq
  have hr0Q : (0 : ℚ) ≤ ((n % 60 : ℤ) : ℚ) := by exact_mod_cast hr0
  have hr1Q : ((n % 60 : ℤ) : ℚ) ≤ 59 := by
    have : n % 60 ≤ 59 := by omega
    exact_mod_cast this
  rw [Int.floor_eq_iff]
  constructor
  · rw [le_div_iff₀ (show (0 : ℚ) < 60 by norm_num)]
    linarith
  · rw [div_lt_iff₀ (show (0 : ℚ) < 60 by norm_num)]
    linarith

theorem pyMod_sixty (t : ℚ) : pyMod t 60 = t - ((60 * (⌊t⌋ / 60) : ℤ) : ℚ) := by
  rw [pyMod, floor_div_sixty]
  push_cast
  ring

/-- For nonnegative seconds, `format_timestamp` computes total minutes and
the remaining seconds of the truncated value: `MM:SS`, not `HH:MM:SS`. -/
theorem format_timestamp_eq_specMMSS (t : ℚ) (ht : 0 ≤ t) :
    format_timestamp t = specMMSS ⌊t⌋ := by
  set n := ⌊t⌋ with hn
  have hq : 60 * (n / 60) + n % 60 = n := Int.ediv_add_emod n 60
  have hr0 : 0 ≤ n % 60 := Int.emod_nonneg n (by norm_num)
  have hr1 : n % 60 < 60 := Int.emod_lt_of_pos n (by norm_num)
  have hnle : (n : ℚ) ≤ t := Int.floor_le t
  have hnlt : t < n + 1 := Int.lt_floor_add_one t
  have hqQ : (60 : ℚ) * ((n / 60 : ℤ) : ℚ) + ((n % 60 : ℤ) : ℚ) = (n : ℚ) := by
    exact_mod_cast hq
  have hr0Q : (0 : ℚ) ≤ ((n % 60 : ℤ) : ℚ) := by exact_mod_cast hr0
  have h60 : 0 ≤ ⌊t / 60⌋ := Int.floor_nonneg.2 (by positivity)
  have hmin : pyInt (pyFloorDiv t 60) = n / 60 := by
    rw [pyFloorDiv, pyInt_of_nonneg (by exact_mod_cast h60), Int.floor_intCast,
      floor_div_sixty]
  have hsec : pyInt (pyMod t 60) = n % 60 := by
    have hm : pyMod t 60 = t - ((60 * (n / 60) : ℤ) : ℚ) := pyMod_sixty t
    have hge : 0 ≤ pyMod t 60 := by
      rw [hm]
      push_cast
      linarith
    rw [pyInt_of_nonneg hge, hm, Int.floor_sub_int, ← hn]
    omega
  unfold format_timestamp specMMSS
  rw [hmin, hsec]

/-! ## The pipeline of `main.py`

Python exceptions become an explicit error type; the S3 client, ffmpeg/ffprobe,
the WhisperX models, the HTTP client (`requests.post`) and the HMAC primitive
(`hmac` + `hashlib`) are external collaborators, modeled as oracles.  The
observable behaviour of a run is the sequence of external calls it makes plus
its final result. -/

/-- Python exceptions raised by the worker or its collaborators. -/
inductive PyErr
  | keyError (key : String)
  | valueError (msg : String)
  | runtimeError (msg : String)
  | calledProcessError (msg : String)
  | exception (msg : String)
deriving DecidableEq

/-- Python `str(e)`: `KeyError` renders as the quoted key. -/
def pyStr : PyErr → String
  | .keyError k => "'" ++ k ++ "'"
  | .valueError m => m
  | .runtimeError m => m
  | .calledProcessError m => m
  | .exception m => m

/-- The webhook payload dict (`status: done` or `status: error`). -/
inductive Payload
  | done (job_id md_key json_key : String)
  | error (job_id error : String)
deriving DecidableEq

/-! ### `json.dumps` on the payload dicts (default separators, `ensure_ascii`) -/

def hexDigit (n : Nat) : Char :=
  if n < 10 then Char.ofNat (48 + n) else Char.ofNat (87 + n)

def hex4 (n : Nat) : String :=
  ⟨[hexDigit (n / 4096 % 16), hexDigit (n / 256 % 16), hexDigit (n / 16 % 16),
    hexDigit (n % 16)]⟩

def jsonEscChar (c : Char) : String :=
  if c = '"' then "\\\""
  else if c = '\\' then "\\\\"
  else if c = '\n' then "\\n"
  else if c = '\t' then "\\t"
  else if c = '\r' then "\\r"
  else if c = '\x08' then "\\b"
  else if c = '\x0c' then "\\f"
  else if 32 ≤ c.toNat && c.toNat ≤ 126 then String.singleton c
  else if c.toNat < 65536 then "\\u" ++ hex4 c.toNat
  else
    "\\u" ++ hex4 (55296 + (c.toNat - 65536) / 1024)
      ++ "\\u" ++ hex4 (56320 + (c.toNat - 65536) % 1024)

def jsonStr (s : String) : String :=
  "\"" ++ String.join (s.data.map jsonEscChar) ++ "\""

def jsonDumps : Payload → String
  | .done j m k =>
    "\x7b\"job_id\": " ++ jsonStr j ++ ", \"status\": \"done\", \"md_key\": "
      ++ jsonStr m ++ ", \"json_key\": " ++ jsonStr k ++ "\x7d"
  | .error j e =>
    "\x7b\"job_id\": " ++ jsonStr j ++ ", \"status\": \"error\", \"error\": "
      ++ jsonStr e ++ "\x7d"

/-! ### External calls and oracles -/

/-- The HTTP request issued by `requests.post` in `send_webhook`.
`requests` serializes `json=payload` with the same default `json.dumps`
used for the signature. -/
structure HttpReq where
  url : String
  method : String := "POST"
  signature : String
  contentType : String
  body : String
  timeout : Nat
deriving DecidableEq

/-- One observable external call of a run.  The markdown upload carries the
uploaded document; the JSON document's serialization is not modeled. -/
inductive Call
  | storageGet (bucket key : String)
  | audioProbe
  | audioExtract
  | durationProbe
  | loadModel
  | transcribe
  | align
  | diarize
  | storagePutMd (bucket key doc : String)
  | storagePutJson (bucket key : String)
  | httpPost (req : HttpReq)
deriving DecidableEq

/-- Environment variables read by the worker (`get_s3` credential checks are
folded into the storage oracles). -/
structure Env where
  webhook_url : String := ""
  webhook_secret : String := ""
  hf_token : Option String := none

/-- Outcomes of the external collaborators for one run.  `align` is the
transcript produced by `whisperx.align` from the transcription; `diarize`
covers the diarization pipeline plus `assign_word_speakers`. -/
structure Collab where
  download : Except PyErr Unit
  has_audio : Bool
  extract : Except PyErr Unit
  load_model : Except PyErr Unit
  transcribe : Except PyErr Transcript
  align : Except PyErr Transcript
  diarize : Except PyErr Transcript
  upload_md : Except PyErr Unit
  upload_json : Except PyErr Unit
  http : HttpReq → Except String Nat

/-- The parsed job dict.  Keys read by `transcribe_task`. -/
structure Job where
  job_id : Option String := none
  s3_bucket : Option String := none
  object_key : Option String := none
  media_type : Option String := none
  model_size : Option String := none
  language : Option String := none
  do_diarize : Option Bool := none
  min_speakers : Option Int := none
  max_speakers : Option Int := none

/-- Python truthiness of the parsed dict (`if job:`). -/
def jobTruthy (job : Job) : Bool :=
  job.job_id.isSome || job.s3_bucket.isSome || job.object_key.isSome
    || job.media_type.isSome || job.model_size.isSome || job.language.isSome
    || job.do_diarize.isSome || job.min_speakers.isSome || job.max_speakers.isSome

/-- A run fragment: the external calls it makes and its result. -/
abbrev Tr (α : Type) := List Call × Except PyErr α

/-- Sequencing of run fragments: an exception aborts, calls accumulate. -/
def trBind {α β : Type} (x : Tr α) (f : α → Tr β) : Tr β :=
  match x with
  | (tr, .error e) => (tr, .error e)
  | (tr, .ok a) => (tr ++ (f a).1, (f a).2)

@[simp] theorem trBind_ok {α β : Type} (tr : List Call) (a : α) (f : α → Tr β) :
    trBind (tr, Except.ok a) f = (tr ++ (f a).1, (f a).2) := rfl

@[simp] theorem trBind_error {α β : Type} (tr : List Call) (e : PyErr) (f : α → Tr β) :
    trBind (tr, Except.error e) f = (tr, Except.error e) := rfl

/-- An external step: the calls it performs and its outcome. -/
def liftE {α : Type} (calls : List Call) (r : Except PyErr α) : Tr α := (calls, r)

/-- Python `job["k"]`: `KeyError` when the key is missing. -/
def pyKey {α : Type} (v : Option α) (k : String) : Tr α :=
  match v with
  | some a => ([], .ok a)
  | none => ([], .error (.keyError k))

/-! ### `validate_webhook_url` and `send_webhook` -/

/-- Path component of `urllib.parse.urlparse`, for the URL shapes involved:
strip the fragment, strip a valid scheme, skip the netloc after `//`, stop at
the query. -/
def isSchemeChar (c : Char) : Bool := c.isAlphanum || c = '+' || c = '-' || c = '.'

def dropScheme (cs : List Char) : List Char :=
  let pre := cs.takeWhile (· ≠ ':')
  if pre.length = cs.length then cs
  else if pre ≠ [] && pre.all isSchemeChar && (pre.headD ' ').isAlpha then
    cs.drop (pre.length + 1)
  else cs

def urlparsePath (url : String) : String :=
  let cs := url.data.takeWhile (· ≠ '#')
  let cs := dropScheme cs
  let cs :=
    match cs with
    | '/' :: '/' :: rest => rest.dropWhile fun c => !(c = '/' || c = '?' || c = '#')
    | _ => cs
  ⟨cs.takeWhile (· ≠ '?')⟩

def routeMsg : String :=
  "WEBHOOK_URL must include route path, e.g. 'https://your-domain.com/api/webhook/modal'"

/-- Translation of `validate_webhook_url()`: read and validate `WEBHOOK_URL`. -/
def validate_webhook_url (env : Env) : Except PyErr String :=
  let webhook := pyRstripSlash env.webhook_url
  if webhook = "" then .error (.runtimeError "WEBHOOK_URL env var missing")
  else if urlparsePath webhook = "" || urlparsePath webhook = "/" then
    .error (.runtimeError routeMsg)
  else .ok webhook

/-- The MAC primitive: `hmac.new(secret, message, hashlib.sha256).hexdigest()`,
an external collaborator. -/
abbrev Mac := String → String → String

/-- The request `send_webhook` posts once the configuration checks pass. -/
def webhookRequest (mac : Mac) (env : Env) (payload : Payload) : HttpReq :=
  { url := pyRstripSlash env.webhook_url
    signature := mac env.webhook_secret (jsonDumps payload)
    contentType := "application/json"
    body := jsonDumps payload
    timeout := 30 }

/-- Translation of `send_webhook(payload, job_id)`. -/
def send_webhook (mac : Mac) (env : Env) (http : HttpReq → Except String Nat)
    (payload : Payload) : Tr Unit :=
  match validate_webhook_url env with
  | .error e => ([], .error e)
  | .ok _ =>
    if env.webhook_secret = "" then ([], .error (.valueError "WEBHOOK_SECRET required"))
    else
      let req := webhookRequest mac env payload
      match http req with
      | .error m =>
        ([.httpPost req], .error (.runtimeError ("Webhook request failed: " ++ m)))
      | .ok status =>
        if status = 204 then ([.httpPost req], .ok ())
        else
          ([.httpPost req],
            .error (.runtimeError ("Unexpected webhook status " ++ natRepr status)))

/-! ### `transcribe_task` -/

/-- Message of `raise ValueError(...)` in `extract_audio` (message as in the source,
mojibake included). -/
def noAudioMsg : String :=
  "Input video does not contain an audio track â€“ cannot transcribe."

/-- The `try:` body of `transcribe_task`, from reading the job's keys to the
`done` webhook, in source order: download, audio preparation (probe before
extraction when `media_type == "video"`), duration probe, model load,
transcription, alignment, optional diarization whose failure is swallowed,
rendering, the two uploads, and the success callback. -/
def pipelineBody (mac : Mac) (env : Env) (c : Collab) (job : Job) : Tr Unit :=
  trBind (pyKey job.object_key "object_key") fun object_key =>
  trBind (pyKey job.s3_bucket "s3_bucket") fun bucket =>
  trBind (liftE [.storageGet bucket object_key] c.download) fun _ =>
  trBind (pyKey job.media_type "media_type") fun media_type =>
  trBind (if media_type = "video" then
            trBind (liftE [.audioProbe] (.ok ())) fun _ =>
              if c.has_audio then liftE [.audioExtract] c.extract
              else liftE [] (.error (.valueError noAudioMsg))
          else liftE [] (.ok ())) fun _ =>
  trBind (liftE [.durationProbe] (.ok ())) fun _ =>
  trBind (liftE [.loadModel] c.load_model) fun _ =>
  trBind (liftE [.transcribe] c.transcribe) fun _ =>
  trBind (liftE [.align] c.align) fun result =>
  trBind (if job.do_diarize.getD true then
            match env.hf_token with
            | none => liftE [] (.ok result)
            | some _ =>
              match c.diarize with
              | .ok r => liftE [.diarize] (.ok r)
              | .error _ => liftE [.diarize] (.ok result)
          else liftE [] (.ok result)) fun result =>
  trBind (pyKey job.job_id "job_id") fun job_id =>
  trBind (liftE [.storagePutMd bucket ("results/" ++ job_id ++ ".md")
                  (write_markdown result)] c.upload_md) fun _ =>
  trBind (liftE [.storagePutJson bucket ("results/" ++ job_id ++ ".json")]
            c.upload_json) fun _ =>
  send_webhook mac env c.http
    (.done job_id ("results/" ++ job_id ++ ".md") ("results/" ++ job_id ++ ".json"))

/-- Translation of `transcribe_task`, with its `except Exception:` handler: on failure, if
the parsed job is truthy, try to send an error webhook (a missing `job_id`
or a webhook failure is swallowed), then re-raise. -/
def transcribe_task (mac : Mac) (env : Env) (c : Collab) (job : Job) : Tr Unit :=
  match pipelineBody mac env c job with
  | (tr, .ok _) => (tr, .ok ())
  | (tr, .error e) =>
    if jobTruthy job then
      match job.job_id with
      | none => (tr, .error e)
      | some jid =>
        (tr ++ (send_webhook mac env c.http (.error jid (pyStr e))).1, .error e)
    else (tr, .error e)

/-! ### Facts about `send_webhook` -/

@[simp] theorem pyKey_some {α : Type} (a : α) (k : String) :
    pyKey (some a) k = ([], Except.ok a) := rfl

@[simp] theorem pyKey_none {α : Type} (k : String) :
    pyKey (none : Option α) k = ([], Except.error (.keyError k)) := rfl

/-- When the webhook is configured and the remote accepts, `send_webhook`
makes exactly the one delivery call and succeeds. -/
theorem send_webhook_delivered (mac : Mac) (env : Env)
    (http : HttpReq → Except String Nat) (payload : Payload)
    (hurl : ∃ u, validate_webhook_url env = .ok u)
    (hsec : env.webhook_secret ≠ "")
    (hhttp : http (webhookRequest mac env payload) = .ok 204) :
    send_webhook mac env http payload
      = ([.httpPost (webhookRequest mac env payload)], .ok ()) := by
  obtain ⟨u, hu⟩ := hurl
  unfold send_webhook
  rw [hu]
  simp only [hsec, if_neg hsec]
  rw [hhttp]
  simp

/-! ## Concrete fixtures for closed statements -/

/-- A stand-in MAC function used only in closed instantiations (the theorems
quantify over the MAC primitive). -/
def macFix : Mac := fun secret message => secret ++ "|" ++ message

def envFix : Env :=
  { webhook_url := "https://h.example/api/hook", webhook_secret := "sec" }

/-- A one-segment transcript as produced by alignment (no speakers yet). -/
def tFix : Transcript :=
  { segments := [{ stop := 2, words := [{ text := some "hi", start := some 0 }] }] }

def collabFix : Collab :=
  { download := .ok (), has_audio := true, extract := .ok (), load_model := .ok ()
    transcribe := .ok tFix, align := .ok tFix, diarize := .error (.exception "boom")
    upload_md := .ok (), upload_json := .ok (), http := fun _ => .ok 204 }

/-! ## Claims about the Callback Notifier -/

/-- Claim C8: `send_webhook` fails before any network call with the
URL-configuration error (`RuntimeError`) when the URL is unset or lacks a
path, fails with the auth error (`ValueError`) when the secret is unset, and
once configured fails with a delivery error (`RuntimeError`) exactly when
the transport fails or the status is not 204, succeeding on 204. -/
theorem c8_ok :
    (∀ (mac : Mac) (env : Env) http payload, pyRstripSlash env.webhook_url = "" →
      send_webhook mac env http payload
        = ([], .error (.runtimeError "WEBHOOK_URL env var missing")))
    ∧ (∀ (mac : Mac) (env : Env) http payload, pyRstripSlash env.webhook_url ≠ "" →
        (urlparsePath (pyRstripSlash env.webhook_url) = ""
          ∨ urlparsePath (pyRstripSlash env.webhook_url) = "/") →
      send_webhook mac env http payload = ([], .error (.runtimeError routeMsg)))
    ∧ (∀ (mac : Mac) (env : Env) http payload u, validate_webhook_url env = .ok u →
        env.webhook_secret = "" →
      send_webhook mac env http payload
        = ([], .error (.valueError "WEBHOOK_SECRET required")))
    ∧ (∀ (mac : Mac) (env : Env) http payload u, validate_webhook_url env = .ok u →
        env.webhook_secret ≠ "" →
      (∀ m, http (webhookRequest mac env payload) = .error m →
        send_webhook mac env http payload
          = ([.httpPost (webhookRequest mac env payload)],
             .error (.runtimeError ("Webhook request failed: " ++ m))))
      ∧ (∀ s, http (webhookRequest mac env payload) = .ok s → s ≠ 204 →
        send_webhook mac env http payload
          = ([.httpPost (webhookRequest mac env payload)],
             .error (.runtimeError ("Unexpected webhook status " ++ natRepr s))))
      ∧ (http (webhookRequest mac env payload) = .ok 204 →
        send_webhook mac env http payload
          = ([.httpPost (webhookRequest mac env payload)], .ok ()))) := by
  refine ⟨?_, ?_, ?_, ?_⟩
  · intro mac env http payload h
    unfold send_webhook validate_webhook_url
    rw [if_pos h]
  · intro mac env http payload h hpath
    unfold send_webhook validate_webhook_url
    rw [if_neg h, if_pos (by simpa [Bool.or_eq_true, decide_eq_true_iff] using hpath)]
  · intro mac env http payload u hu hsec
    unfold send_webhook
    rw [hu, if_pos hsec]
  · intro mac env http payload u hu hsec
    refine ⟨?_, ?_, ?_⟩
    · intro m hm
      unfold send_webhook
      rw [hu, if_neg hsec]
      simp only [hm]
    · intro s hs hs204
      unfold send_webhook
      rw [hu, if_neg hsec]
      simp only [hs]
      rw [if_neg hs204]
    · intro h204
      exact send_webhook_delivered mac env http payload ⟨u, hu⟩ hsec h204

theorem c8_ok_witness :
    send_webhook macFix { webhook_url := "", webhook_secret := "sec" }
        (fun _ => .ok 204) (.done "j" "a" "b")
      = ([], .error (.runtimeError "WEBHOOK_URL env var missing"))
    ∧ send_webhook macFix { webhook_url := "https://host.example", webhook_secret := "sec" }
        (fun _ => .ok 204) (.done "j" "a" "b")
      = ([], .error (.runtimeError routeMsg))
    ∧ send_webhook macFix { envFix with webhook_secret := "" }
        (fun _ => .ok 204) (.done "j" "a" "b")
      = ([], .error (.valueError "WEBHOOK_SECRET required"))
    ∧ send_webhook macFix envFix (fun _ => .ok 500) (.done "j" "a" "b")
      = ([.httpPost (webhookRequest macFix envFix (.done "j" "a" "b"))],
         .error (.runtimeError ("Unexpected webhook status " ++ natRepr 500))) :=
  ⟨c8_ok.1 macFix _ _ _ (by decide),
   c8_ok.2.1 macFix _ _ _ (by decide) (Or.inl (by decide)),
   c8_ok.2.2.1 macFix _ _ _ "https://h.example/api/hook" rfl rfl,
   (c8_ok.2.2.2 macFix envFix (fun _ => .ok 500) (.done "j" "a" "b")
      "https://h.example/api/hook" rfl (by decide)).2.1 500 rfl (by decide)⟩

/-- Claim C9: Once configured, `send_webhook` posts exactly one request: body =
`json.dumps(payload)`, signature = the MAC of the secret over exactly those
bytes, `Content-Type: application/json`, 30-second timeout, `POST`; the
request (in particular the signature) is a function of the secret and
payload alone — identical across transports. -/
theorem c9_ok (mac : Mac) (env : Env) (http : HttpReq → Except String Nat)
    (payload : Payload) (u : String)
    (hurl : validate_webhook_url env = .ok u) (hsec : env.webhook_secret ≠ "") :
    (send_webhook mac env http payload).1
      = [.httpPost { url := pyRstripSlash env.webhook_url, method := "POST"
                     signature := mac env.webhook_secret (jsonDumps payload)
                     contentType := "application/json"
                     body := jsonDumps payload, timeout := 30 }]
    ∧ (∀ http', (send_webhook mac env http' payload).1
        = (send_webhook mac env http payload).1) := by
  have key : ∀ h' : HttpReq → Except String Nat,
      (send_webhook mac env h' payload).1 = [.httpPost (webhookRequest mac env payload)] := by
    intro h'
    unfold send_webhook
    rw [hurl, if_neg hsec]
    cases hh : h' (webhookRequest mac env payload) with
    | error m => simp [hh]
    | ok s =>
      by_cases h204 : s = 204 <;> simp [hh, h204]
  exact ⟨by rw [key http]; rfl, fun http' => by rw [key http', key http]⟩

theorem c9_ok_witness :
    (send_webhook macFix envFix (fun _ => .ok 204)
        (.done "j1" "results/j1.md" "results/j1.json")).1
      = [.httpPost
          { url := "https://h.example/api/hook", method := "POST"
            signature := "sec|\x7b\"job_id\": \"j1\", \"status\": \"done\", \"md_key\": \"results/j1.md\", \"json_key\": \"results/j1.json\"\x7d"
            contentType := "application/json"
            body := "\x7b\"job_id\": \"j1\", \"status\": \"done\", \"md_key\": \"results/j1.md\", \"json_key\": \"results/j1.json\"\x7d"
            timeout := 30 }] := by
  have h := (c9_ok macFix envFix (fun _ => .ok 204)
    (.done "j1" "results/j1.md" "results/j1.json") _ rfl (by decide)).1
  rw [h]
  decide

/-! ## Claims about the Job Pipeline Controller -/

/-- Whether a call is a webhook delivery. -/
def isHttpPost : Call → Bool
  | .httpPost _ => true
  | _ => false

/-- Job with `media_type` missing. -/
def jobC1 : Job := { job_id := some "j1", s3_bucket := some "b", object_key := some "clip.wav" }

/-- Job with `job_id` missing. -/
def jobC1' : Job :=
  { s3_bucket := some "b", object_key := some "clip.wav", media_type := some "audio" }

/-- Claim C1, counterexample: The claim says a job missing a required field
fails before any storage or model call, with the error callback the only
external call.  But: a job missing only `media_type` performs the storage
fetch before failing; and a job missing only `job_id` performs the storage
fetch and all model calls and then delivers no callback at all (building the
error payload re-raises `KeyError`). -/
theorem c1_counterexample :
    (transcribe_task macFix envFix collabFix jobC1
      = ([.storageGet "b" "clip.wav",
          .httpPost (webhookRequest macFix envFix (.error "j1" "'media_type'"))],
         .error (.keyError "media_type"))
      ∧ Call.storageGet "b" "clip.wav" ∈ (transcribe_task macFix envFix collabFix jobC1).1)
    ∧ (transcribe_task macFix envFix collabFix jobC1'
      = ([.storageGet "b" "clip.wav", .durationProbe, .loadModel, .transcribe, .align],
         .error (.keyError "job_id"))
      ∧ (transcribe_task macFix envFix collabFix jobC1').1.all
          (fun call => !isHttpPost call) = true) :=
  ⟨⟨by decide, by decide⟩, ⟨by decide, by decide⟩⟩

/-- Claim C1, amended: Missing `object_key` or `s3_bucket` (the spec's
`storage_bucket`) does fail before any storage or model call with the error
callback as the only external call; but missing `media_type` fails only
after the storage fetch, and missing `job_id` fails after the storage fetch
and all the model calls with no callback delivered at all. -/
theorem c1_amended (mac : Mac) (env : Env) (c : Collab)
    (hurl : ∃ u, validate_webhook_url env = .ok u)
    (hsec : env.webhook_secret ≠ "")
    (hhttp : ∀ req, c.http req = .ok 204) :
    (∀ job jid, job.object_key = none → job.job_id = some jid →
      transcribe_task mac env c job
        = ([.httpPost (webhookRequest mac env (.error jid "'object_key'"))],
           .error (.keyError "object_key")))
    ∧ (∀ job jid k, job.object_key = some k → job.s3_bucket = none →
        job.job_id = some jid →
      transcribe_task mac env c job
        = ([.httpPost (webhookRequest mac env (.error jid "'s3_bucket'"))],
           .error (.keyError "s3_bucket")))
    ∧ (∀ job jid k b, job.object_key = some k → job.s3_bucket = some b →
        job.media_type = none → job.job_id = some jid → c.download = .ok () →
      transcribe_task mac env c job
        = ([.storageGet b k,
            .httpPost (webhookRequest mac env (.error jid "'media_type'"))],
           .error (.keyError "media_type")))
    ∧ (∀ job k b t1 t2, job.object_key = some k → job.s3_bucket = some b →
        job.media_type = some "audio" → job.job_id = none → env.hf_token = none →
        c.download = .ok () → c.load_model = .ok () →
        c.transcribe = .ok t1 → c.align = .ok t2 →
      transcribe_task mac env c job
        = ([.storageGet b k, .durationProbe, .loadModel, .transcribe, .align],
           .error (.keyError "job_id"))) := by
  have hsw : ∀ payload, send_webhook mac env c.http payload
      = ([.httpPost (webhookRequest mac env payload)], .ok ()) := fun payload =>
    send_webhook_delivered mac env c.http payload hurl hsec (hhttp _)
  refine ⟨?_, ?_, ?_, ?_⟩
  · intro job jid hko hjid
    have hbody : pipelineBody mac env c job = ([], .error (.keyError "object_key")) := by
      unfold pipelineBody
      simp [hko]
    unfold transcribe_task
    rw [hbody]
    have htr : jobTruthy job = true := by simp [jobTruthy, hjid]
    simp only [htr, if_true, hjid]
    rw [hsw]
    rfl
  · intro job jid k hko hkb hjid
    have hbody : pipelineBody mac env c job = ([], .error (.keyError "s3_bucket")) := by
      unfold pipelineBody
      simp [hko, hkb]
    unfold transcribe_task
    rw [hbody]
    have htr : jobTruthy job = true := by simp [jobTruthy, hjid]
    simp only [htr, if_true, hjid]
    rw [hsw]
    rfl
  · intro job jid k b hko hkb hkm hjid hdl
    have hbody : pipelineBody mac env c job
        = ([.storageGet b k], .error (.keyError "media_type")) := by
      unfold pipelineBody
      simp [hko, hkb, hkm, hdl, liftE]
    unfold transcribe_task
    rw [hbody]
    have htr : jobTruthy job = true := by simp [jobTruthy, hjid]
    simp only [htr, if_true, hjid]
    rw [hsw]
    rfl
  · intro job k b t1 t2 hko hkb hkm hjid htok hdl hlm htrn hal
    have hbody : pipelineBody mac env c job
        = ([.storageGet b k, .durationProbe, .loadModel, .transcribe, .align],
           .error (.keyError "job_id")) := by
      unfold pipelineBody
      simp [hko, hkb, hkm, hjid, htok, hdl, hlm, htrn, hal, liftE]
    unfold transcribe_task
    rw [hbody]
    have htr : jobTruthy job = true := by simp [jobTruthy, hko]
    simp only [htr, if_true, hjid]

theorem c1_amended_witness :
    transcribe_task macFix envFix collabFix { job_id := some "j1" }
      = ([.httpPost (webhookRequest macFix envFix (.error "j1" "'object_key'"))],
         .error (.keyError "object_key"))
    ∧ transcribe_task macFix envFix collabFix
        { job_id := some "j1", object_key := some "clip.wav" }
      = ([.httpPost (webhookRequest macFix envFix (.error "j1" "'s3_bucket'"))],
         .error (.keyError "s3_bucket"))
    ∧ transcribe_task macFix envFix collabFix jobC1
      = ([.storageGet "b" "clip.wav",
          .httpPost (webhookRequest macFix envFix (.error "j1" "'media_type'"))],
         .error (.keyError "media_type"))
    ∧ transcribe_task macFix envFix collabFix jobC1'
      = ([.storageGet "b" "clip.wav", .durationProbe, .loadModel, .transcribe, .align],
         .error (.keyError "job_id")) := by
  have h := c1_amended macFix envFix collabFix ⟨_, rfl⟩ (by decide) (fun _ => rfl)
  exact ⟨h.1 _ "j1" rfl rfl,
         h.2.1 _ "j1" "clip.wav" rfl rfl rfl,
         h.2.2.1 _ "j1" "clip.wav" "b" rfl rfl rfl rfl rfl,
         h.2.2.2 _ "clip.wav" "b" tFix tFix rfl rfl rfl rfl rfl rfl rfl rfl rfl⟩

/-- Claim C6: For a video job whose source has no audio stream, the run probes
before extraction (the probe is in the trace, the extraction never is),
fails with the `ValueError` whose message names the missing audio track,
delivers an Error Outcome, and neither uploads anything nor posts a success
callback. -/
theorem c6_ok (mac : Mac) (env : Env) (c : Collab) (job : Job) (jid b k : String)
    (hjid : job.job_id = some jid) (hkb : job.s3_bucket = some b)
    (hko : job.object_key = some k) (hkm : job.media_type = some "video")
    (hdl : c.download = .ok ()) (hna : c.has_audio = false)
    (hurl : ∃ u, validate_webhook_url env = .ok u) (hsec : env.webhook_secret ≠ "")
    (hhttp : ∀ req, c.http req = .ok 204) :
    transcribe_task mac env c job
      = ([.storageGet b k, .audioProbe,
          .httpPost (webhookRequest mac env (.error jid noAudioMsg))],
         .error (.valueError noAudioMsg))
    ∧ ("audio track".data <:+: noAudioMsg.data)
    ∧ Call.audioExtract ∉ (transcribe_task mac env c job).1
    ∧ (∀ bb kk dd, Call.storagePutMd bb kk dd ∉ (transcribe_task mac env c job).1)
    ∧ (∀ req, Call.httpPost req ∈ (transcribe_task mac env c job).1 →
        req = webhookRequest mac env (.error jid noAudioMsg)) := by
  have hsw : ∀ payload, send_webhook mac env c.http payload
      = ([.httpPost (webhookRequest mac env payload)], .ok ()) := fun payload =>
    send_webhook_delivered mac env c.http payload hurl hsec (hhttp _)
  have hbody : pipelineBody mac env c job
      = ([.storageGet b k, .audioProbe], .error (.valueError noAudioMsg)) := by
    unfold pipelineBody
    simp [hko, hkb, hkm, hdl, hna, liftE]
  have hmain : transcribe_task mac env c job
      = ([.storageGet b k, .audioProbe,
          .httpPost (webhookRequest mac env (.error jid noAudioMsg))],
         .error (.valueError noAudioMsg)) := by
    unfold transcribe_task
    rw [hbody]
    have htr : jobTruthy job = true := by simp [jobTruthy, hjid]
    simp only [htr, if_true, hjid]
    rw [hsw]
    rfl
  refine ⟨hmain, by decide, ?_, ?_, ?_⟩
  · rw [hmain]
    simp
  · intro bb kk dd
    rw [hmain]
    simp
  · intro req hreq
    rw [hmain] at hreq
    simpa using hreq

theorem c6_ok_witness :
    transcribe_task macFix envFix { collabFix with has_audio := false }
        { jobC1 with media_type := some "video" }
      = ([.storageGet "b" "clip.wav", .audioProbe,
          .httpPost (webhookRequest macFix envFix (.error "j1" noAudioMsg))],
         .error (.valueError noAudioMsg))
    ∧ ("audio track".data <:+: noAudioMsg.data) := by
  have h := c6_ok macFix envFix { collabFix with has_audio := false }
    { jobC1 with media_type := some "video" } "j1" "b" "clip.wav"
    rfl rfl rfl rfl rfl rfl ⟨_, rfl⟩ (by decide) (fun _ => rfl)
  exact ⟨h.1, h.2.1⟩

/-- Claim C7: With diarization enabled and a diarization collaborator that
fails, the job still runs to completion: the remaining stages (render,
both uploads, success callback) all execute, the final result is `Done`,
and — the words carrying no speaker labels — every paragraph of the
rendered document is labeled `**UNKNOWN**`. -/
theorem c7_ok (mac : Mac) (env : Env) (c : Collab) (job : Job) (jid b k tok : String)
    (t1 t2 : Transcript) (e : PyErr)
    (hjid : job.job_id = some jid) (hkb : job.s3_bucket = some b)
    (hko : job.object_key = some k) (hkm : job.media_type = some "audio")
    (hdd : job.do_diarize.getD true = true) (htok : env.hf_token = some tok)
    (hdl : c.download = .ok ()) (hlm : c.load_model = .ok ())
    (htrn : c.transcribe = .ok t1) (hal : c.align = .ok t2)
    (hdi : c.diarize = .error e)
    (hu1 : c.upload_md = .ok ()) (hu2 : c.upload_json = .ok ())
    (hurl : ∃ u, validate_webhook_url env = .ok u) (hsec : env.webhook_secret ≠ "")
    (hhttp : ∀ req, c.http req = .ok 204)
    (hunk : ∀ w ∈ flatWords t2.segments, w.speaker = none) :
    transcribe_task mac env c job
      = ([.storageGet b k, .durationProbe, .loadModel, .transcribe, .align, .diarize,
          .storagePutMd b ("results/" ++ jid ++ ".md") (write_markdown t2),
          .storagePutJson b ("results/" ++ jid ++ ".json"),
          .httpPost (webhookRequest mac env
            (.done jid ("results/" ++ jid ++ ".md") ("results/" ++ jid ++ ".json")))],
         .ok ())
    ∧ (∀ core ∈ turnCores t2.segments, ∃ t0 txts,
        core = "[" ++ format_timestamp t0 ++ "] **UNKNOWN**: "
                 ++ String.intercalate " " txts ∧ txts ≠ []) := by
  have hsw : ∀ payload, send_webhook mac env c.http payload
      = ([.httpPost (webhookRequest mac env payload)], .ok ()) := fun payload =>
    send_webhook_delivered mac env c.http payload hurl hsec (hhttp _)
  have hbody : pipelineBody mac env c job
      = ([.storageGet b k, .durationProbe, .loadModel, .transcribe, .align, .diarize,
          .storagePutMd b ("results/" ++ jid ++ ".md") (write_markdown t2),
          .storagePutJson b ("results/" ++ jid ++ ".json"),
          .httpPost (webhookRequest mac env
            (.done jid ("results/" ++ jid ++ ".md") ("results/" ++ jid ++ ".json")))],
         .ok ()) := by
    unfold pipelineBody
    simp [hko, hkb, hkm, hjid, hdd, htok, hdl, hlm, htrn, hal, hdi, hu1, hu2, hsw, liftE]
  constructor
  · unfold transcribe_task
    rw [hbody]
  · exact turnCores_unknown t2.segments hunk

theorem c7_ok_witness :
    transcribe_task macFix { envFix with hf_token := some "tok" } collabFix
        { jobC1 with media_type := some "audio" }
      = ([.storageGet "b" "clip.wav", .durationProbe, .loadModel, .transcribe, .align,
          .diarize,
          .storagePutMd "b" "results/j1.md" (write_markdown tFix),
          .storagePutJson "b" "results/j1.json",
          .httpPost (webhookRequest macFix { envFix with hf_token := some "tok" }
            (.done "j1" "results/j1.md" "results/j1.json"))],
         .ok ())
    ∧ (∀ core ∈ turnCores tFix.segments, ∃ t0 txts,
        core = "[" ++ format_timestamp t0 ++ "] **UNKNOWN**: "
                 ++ String.intercalate " " txts ∧ txts ≠ []) := by
  have h := c7_ok macFix { envFix with hf_token := some "tok" } collabFix
    { jobC1 with media_type := some "audio" } "j1" "b" "clip.wav" "tok"
    tFix tFix (.exception "boom")
    rfl rfl rfl rfl (by decide) rfl rfl rfl rfl rfl rfl rfl rfl
    ⟨_, rfl⟩ (by decide) (fun _ => rfl) (by decide)
  exact h

/-! ## Claims about the Transcript Renderer -/

@[simp] theorem string_mk_data (s : String) : String.mk s.data = s := rfl

@[simp] theorem string_mk_nil : String.mk [] = "" := rfl

/-- Claim C2, counterexample: The claim says the renderer fails with
`EmptyInput` on zero segments and produces no document.  The code has no
such check: on an empty segment list it produces the complete skeleton
document. -/
theorem c2_counterexample :
    write_markdown { segments := [], language := none }
      = "# Transcript\n\n\n---\n\n\n## Metadata\n\n- Total segments: 0\n\n- Duration: N/A\n\n- Language: N/A\n"
    ∧ write_markdown { segments := [], language := none } ≠ "" := by
  exact ⟨by decide, by decide⟩

/-- Claim C2, amended: For zero segments the renderer does not fail: it emits
the full document skeleton, whose footer reports 0 segments and `N/A` for
duration and language. -/
theorem c2_amended (lang : Option String) :
    write_markdown { segments := [], language := lang }
      = String.intercalate "\n"
          ["# Transcript\n", "\n---\n", "\n## Metadata\n", "- Total segments: 0\n",
           "- Duration: N/A\n", "- Language: " ++ lang.getD "N/A" ++ "\n"] := rfl

theorem c2_amended_witness :
    write_markdown { segments := [], language := some "en" }
      = String.intercalate "\n"
          ["# Transcript\n", "\n---\n", "\n## Metadata\n", "- Total segments: 0\n",
           "- Duration: N/A\n", "- Language: " ++ "en" ++ "\n"] :=
  c2_amended (some "en")

/-- Transcript with one segment starting at 100 s and ending at 4000 s. -/
def tC5 : Transcript := { segments := [{ start := 100, stop := 4000 }] }

set_option maxRecDepth 4000 in
unseal Rat.mul Rat.inv Rat.add Rat.sub in
/-- Claim C5, counterexample: The claim says the footer duration is
`last.end − first.start` in zero-padded `HH:MM:SS`, which here would be
`specHMS (4000 − 100) = "01:05:00"`.  The code emits
`format_timestamp(last.end) = "66:40"` — the raw end timestamp in `MM:SS`
with unbounded minutes — and the claimed string occurs nowhere in the
document. -/
theorem c5_counterexample :
    durationField tC5.segments = "66:40"
    ∧ specHMS (4000 - 100) = "01:05:00"
    ∧ durationField tC5.segments ≠ specHMS (4000 - 100)
    ∧ ¬ (("01:05:00").data <:+: (write_markdown tC5).data) := by
  exact ⟨by decide, by decide, by decide, by decide⟩

/-- Claim C5, amended: The footer reports the formatted `end` of the last
segment (not a difference), and every timestamp the renderer emits uses the
same rule: truncate to whole seconds and format as zero-padded `MM:SS` with
total (unbounded) minutes. -/
theorem c5_amended (t : Transcript) (s : Segment)
    (hlast : t.segments.getLast? = some s) :
    durationField t.segments = format_timestamp s.stop
    ∧ (∀ q : ℚ, 0 ≤ q → format_timestamp q = specMMSS ⌊q⌋) := by
  constructor
  · unfold durationField
    rw [hlast]
  · exact format_timestamp_eq_specMMSS

theorem c5_amended_witness :
    durationField tC5.segments = format_timestamp (4000 : ℚ)
    ∧ format_timestamp (4000 : ℚ) = specMMSS ⌊(4000 : ℚ)⌋ := by
  have h := c5_amended tC5 { start := 100, stop := 4000 } rfl
  exact ⟨h.1, h.2 4000 (by norm_num)⟩

/-- Nonempty transcript whose single segment has text but no words. -/
def tC4 : Transcript := { segments := [{ stop := 2, text := some "hi there" }] }

set_option maxRecDepth 4000 in
unseal Rat.mul Rat.inv Rat.add Rat.sub in
/-- Claim C4, counterexample: The claim says every nonempty transcript's
document has a segmented section with one block per segment carrying the
segment's trimmed text.  The code has no such pass: here the rendered
document contains no trace of the segment (its text `"hi there"` does not
occur). -/
theorem c4_counterexample :
    tC4.segments ≠ []
    ∧ write_markdown tC4
      = "# Transcript\n\n\n---\n\n\n## Metadata\n\n- Total segments: 1\n\n- Duration: 00:02\n\n- Language: N/A\n"
    ∧ ¬ (("hi there").data <:+: (write_markdown tC4).data) := by
  exact ⟨by decide, by decide, by decide⟩

/-- Claim C4, amended: There is no segmented section: the rendered document
is fully determined by the word lists, the per-segment `end` values, the
segment count and the language — the segments' `text`, `speaker` and
`start` fields never reach the output. -/
theorem c4_amended (t t' : Transcript)
    (hw : t.segments.map Segment.words = t'.segments.map Segment.words)
    (hstop : t.segments.map Segment.stop = t'.segments.map Segment.stop)
    (hlang : t.language = t'.language) :
    write_markdown t = write_markdown t' := by
  have key : ∀ l l' : List Segment, l.map Segment.words = l'.map Segment.words →
      l.flatMap Segment.words = l'.flatMap Segment.words := by
    intro l
    induction l with
    | nil =>
      intro l' h
      cases l' with
      | nil => rfl
      | cons a b => simp at h
    | cons s ss ih =>
      intro l' h
      cases l' with
      | nil => simp at h
      | cons s' ss' =>
        simp only [List.map_cons, List.cons.injEq] at h
        rw [List.flatMap_cons, List.flatMap_cons, h.1, ih ss' h.2]
  have hflat : flatWords t.segments = flatWords t'.segments :=
    key t.segments t'.segments hw
  have hcores : turnCores t.segments = turnCores t'.segments := by
    rw [turnCores_eq_flatWords, turnCores_eq_flatWords, hflat]
  have hlen : t.segments.length = t'.segments.length := by
    have h := congrArg List.length hw
    simpa using h
  have hdur : durationField t.segments = durationField t'.segments := by
    unfold durationField
    have h : t.segments.getLast?.map Segment.stop = t'.segments.getLast?.map Segment.stop := by
      rw [← List.getLast?_map, ← List.getLast?_map, hstop]
    cases h1 : t.segments.getLast? with
    | none =>
      cases h2 : t'.segments.getLast? with
      | none => rfl
      | some s' => rw [h1, h2] at h; simp at h
    | some s =>
      cases h2 : t'.segments.getLast? with
      | none => rw [h1, h2] at h; simp at h
      | some s' =>
        rw [h1, h2] at h
        simp at h
        simp only [h]
  unfold write_markdown metaLines
  rw [hcores, hlen, hdur, hlang]

theorem c4_amended_witness :
    write_markdown tC4
      = write_markdown { segments := [{ stop := 2, text := none, speaker := some "S7" }] } :=
  c4_amended _ _ rfl rfl rfl

/-- Claim C10: The dialogue pass is built exclusively from the word entries:
it depends only on the flattened word list (so a segment's `text` is never
read and a wordless segment contributes nothing), and a word whose stripped
text is empty is skipped outright — its start time and speaker label have
no effect on the loop state. -/
theorem c10_ok :
    (∀ t t' : Transcript, flatWords t.segments = flatWords t'.segments →
      turnCores t.segments = turnCores t'.segments)
    ∧ (∀ (segs1 segs2 : List Segment) (s : Segment), s.words = [] →
        turnCores (segs1 ++ s :: segs2) = turnCores (segs1 ++ segs2))
    ∧ (∀ (ws : List Word) (st : RState),
        (ws.filter fun w => pyStrip (w.text.getD "") ≠ "").foldl processWord st
          = ws.foldl processWord st) :=
  ⟨fun _ _ h => by rw [turnCores_eq_flatWords, turnCores_eq_flatWords, h],
   turnCores_wordless,
   foldl_processWord_filter⟩

/-- Word fixtures for the C10 witness: `wBlankC10`'s stripped text is empty
while its speaker and start differ from everything else. -/
def wHiC10 : Word := { speaker := some "S1", text := some "hi", start := some 0 }

def wBlankC10 : Word := { speaker := some "S9", text := some "   ", start := some 42 }

def tC10 : Transcript :=
  { segments := [{ stop := 2, text := some "ignored", words := [wHiC10] },
                 { stop := 3, text := some "also ignored" }] }

def tC10' : Transcript := { segments := [{ stop := 9, words := [wHiC10] }] }

theorem c10_ok_witness :
    turnCores tC10.segments = turnCores tC10'.segments
    ∧ ([wHiC10, wBlankC10].filter
          (fun w => pyStrip (w.text.getD "") ≠ "")).foldl processWord {}
      = [wHiC10, wBlankC10].foldl processWord {} :=
  ⟨c10_ok.1 tC10 tC10' (by decide), c10_ok.2.2 [wHiC10, wBlankC10] {}⟩

/-! ## C3: blank lines around speaker turns -/

/-- Number of consecutive blank lines immediately before the first occurrence
of line `s`. -/
def blankRunBefore (ls : List String) (s : String) : Nat :=
  ((ls.takeWhile (· ≠ s)).reverse.takeWhile (· = "")).length

/-- Two segments, two speakers. -/
def tC3 : Transcript :=
  { segments :=
      [{ stop := 5, words := [{ speaker := some "S1", text := some "hi", start := some 0 }] },
       { stop := 6, words := [{ speaker := some "S2", text := some "yo", start := some 5 }] }] }

set_option maxRecDepth 8000 in
unseal Rat.mul Rat.inv Rat.add Rat.sub in
/-- Claim C3, counterexample: The claim says the very first turn is preceded
by no blank line and each speaker change by exactly one.  In the rendered
document both the first turn and the second (a speaker change) are preceded
by exactly two blank lines. -/
theorem c3_counterexample :
    docLines (write_markdown tC3)
      = ["# Transcript", "", "", "[00:00] **S1**: hi", "", "", "[00:05] **S2**: yo",
         "", "", "---", "", "", "## Metadata", "", "- Total segments: 2", "",
         "- Duration: 00:06", "", "- Language: N/A", ""]
    ∧ blankRunBefore (docLines (write_markdown tC3)) "[00:00] **S1**: hi" = 2
    ∧ blankRunBefore (docLines (write_markdown tC3)) "[00:05] **S2**: yo" = 2
    ∧ (2 : Nat) ≠ 0 ∧ (2 : Nat) ≠ 1 := by
  exact ⟨by decide, by decide, by decide, by decide, by decide⟩

/-- The rendered document line by line (under the benign assumption that
word texts, speakers and the language tag contain no newline). -/
theorem docLines_write_markdown (t : Transcript)
    (hw : ∀ w ∈ flatWords t.segments,
      nlFree (w.text.getD "") ∧ nlFree (w.speaker.getD "UNKNOWN"))
    (hlang : nlFree (t.language.getD "N/A")) :
    docLines (write_markdown t)
      = ["# Transcript", ""]
        ++ (turnCores t.segments).flatMap (fun c => ["", c, ""])
        ++ ["", "---", "", "", "## Metadata", "",
            "- Total segments: " ++ natRepr t.segments.length, "",
            "- Duration: " ++ durationField t.segments, "",
            "- Language: " ++ t.language.getD "N/A", ""] := by
  have hcores := turnCores_nlFree t.segments hw
  unfold docLines
  rw [splitNl_write_markdown t hcores hlang]
  simp only [List.map_append, List.map_flatMap, List.map_cons, List.map_nil,
    string_mk_data, string_mk_nil]

/-! ### One paragraph per maximal same-speaker run

The following functional characterization covers arbitrary mixed-speaker
sequences: the dialogue pass emits exactly one paragraph per maximal run of
equal effective speakers (`word.get("speaker", "UNKNOWN")`) among the words
with nonempty stripped text, labeled by that run's speaker and timestamped
by the run's first word. -/

/-- One dialogue paragraph: run speaker `s`, first start `t0`, texts `p`. -/
def runCore (s : String) (t0 : ℚ) (p : List String) : String :=
  "[" ++ format_timestamp t0 ++ "] " ++ speaker_label (some s) ++ ": "
    ++ String.intercalate " " p

/-- The paragraphs produced once a turn (speaker `s`, start `t0`, texts `p`)
is open: a word of the same effective speaker extends the open turn, a
speaker change closes it and opens exactly one new turn. -/
def runsFrom (s : String) (t0 : ℚ) (p : List String) : List Word → List String
  | [] => [runCore s t0 p]
  | w :: ws =>
    if w.speaker.getD "UNKNOWN" = s then
      runsFrom s t0 (p ++ [pyStrip (w.text.getD "")]) ws
    else
      runCore s t0 p
        :: runsFrom (w.speaker.getD "UNKNOWN") (w.start.getD 0)
             [pyStrip (w.text.getD "")] ws

/-- The dialogue paragraphs of a blank-free word sequence. -/
def dialogueCores : List Word → List String
  | [] => []
  | w :: ws =>
    runsFrom (w.speaker.getD "UNKNOWN") (w.start.getD 0)
      [pyStrip (w.text.getD "")] ws

theorem flushPara_open (s : String) (t0 : ℚ) (p done : List String) (hp : p ≠ []) :
    flushPara { current_speaker := some s, current_paragraph := p,
                current_start_time := some t0, paras := done }
      = [runCore s t0 p] := by
  simp [flushPara, hp, runCore]

/-- Running the word loop from an open turn produces exactly the paragraphs
described by `runsFrom`. -/
theorem foldl_runsFrom : ∀ (ws : List Word) (s : String) (t0 : ℚ) (p done : List String),
    (∀ w ∈ ws, pyStrip (w.text.getD "") ≠ "") → p ≠ [] →
    ((ws.foldl processWord
        { current_speaker := some s, current_paragraph := p,
          current_start_time := some t0, paras := done }).paras
      ++ flushPara (ws.foldl processWord
        { current_speaker := some s, current_paragraph := p,
          current_start_time := some t0, paras := done }))
      = done ++ runsFrom s t0 p ws := by
  intro ws
  induction ws with
  | nil =>
    intro s t0 p done _ hp
    rw [List.foldl_nil, flushPara_open s t0 p done hp]
    rfl
  | cons w ws ih =>
    intro s t0 p done hnb hp
    have hwb : pyStrip (w.text.getD "") ≠ "" := hnb w (by simp)
    rw [List.foldl_cons, processWord_def, if_neg hwb]
    by_cases hs : w.speaker.getD "UNKNOWN" = s
    · rw [if_neg (show ¬(some (w.speaker.getD "UNKNOWN")
          ≠ ({ current_speaker := some s, current_paragraph := p,
               current_start_time := some t0, paras := done } : RState).current_speaker)
        from by simp [hs])]
      rw [show runsFrom s t0 p (w :: ws)
          = if w.speaker.getD "UNKNOWN" = s then
              runsFrom s t0 (p ++ [pyStrip (w.text.getD "")]) ws
            else
              runCore s t0 p
                :: runsFrom (w.speaker.getD "UNKNOWN") (w.start.getD 0)
                     [pyStrip (w.text.getD "")] ws
        from rfl, if_pos hs]
      exact ih s t0 (p ++ [pyStrip (w.text.getD "")]) done
        (fun x hx => hnb x (by simp [hx])) (by simp)
    · rw [if_pos (show some (w.speaker.getD "UNKNOWN")
          ≠ ({ current_speaker := some s, current_paragraph := p,
               current_start_time := some t0, paras := done } : RState).current_speaker
        from by simp [hs])]
      rw [show runsFrom s t0 p (w :: ws)
          = if w.speaker.getD "UNKNOWN" = s then
              runsFrom s t0 (p ++ [pyStrip (w.text.getD "")]) ws
            else
              runCore s t0 p
                :: runsFrom (w.speaker.getD "UNKNOWN") (w.start.getD 0)
                     [pyStrip (w.text.getD "")] ws
        from rfl, if_neg hs]
      have hstep := ih (w.speaker.getD "UNKNOWN") (w.start.getD 0)
        [pyStrip (w.text.getD "")] (done ++ [runCore s t0 p])
        (fun x hx => hnb x (by simp [hx])) (by simp)
      rw [show (done ++ (runCore s t0 p
            :: runsFrom (w.speaker.getD "UNKNOWN") (w.start.getD 0)
                 [pyStrip (w.text.getD "")] ws))
          = (done ++ [runCore s t0 p])
            ++ runsFrom (w.speaker.getD "UNKNOWN") (w.start.getD 0)
                 [pyStrip (w.text.getD "")] ws
        from by simp]
      rw [← hstep]
      congr 2 <;>
        rw [flushPara_open s t0 p done hp]

/-- The dialogue pass computes exactly the run decomposition of the
flattened, blank-filtered word list. -/
theorem turnCores_eq_dialogueCores (segs : List Segment) :
    turnCores segs
      = dialogueCores
          ((flatWords segs).filter fun w => pyStrip (w.text.getD "") ≠ "") := by
  rw [turnCores_eq_flatWords]
  show ((flatWords segs).foldl processWord {}).paras
      ++ flushPara ((flatWords segs).foldl processWord {}) = _
  rw [← foldl_processWord_filter (flatWords segs) {}]
  have hnb : ∀ w ∈ (flatWords segs).filter fun w => pyStrip (w.text.getD "") ≠ "",
      pyStrip (w.text.getD "") ≠ "" := by
    intro w hw
    have h := (List.mem_filter.1 hw).2
    simpa using h
  cases hws : (flatWords segs).filter fun w => pyStrip (w.text.getD "") ≠ "" with
  | nil => rfl
  | cons w ws' =>
    rw [hws] at hnb
    have hwb : pyStrip (w.text.getD "") ≠ "" := hnb w (by simp)
    rw [List.foldl_cons, processWord_def, if_neg hwb,
      if_pos (show some (w.speaker.getD "UNKNOWN")
          ≠ ({} : RState).current_speaker from by simp)]
    have h := foldl_runsFrom ws' (w.speaker.getD "UNKNOWN") (w.start.getD 0)
      [pyStrip (w.text.getD "")] [] (fun x hx => hnb x (by simp [hx])) (by simp)
    simp only [List.nil_append] at h
    exact h

/-- Number of speaker changes between adjacent words, continuing speaker `s`. -/
def changesFrom : String → List Word → Nat
  | _, [] => 0
  | s, w :: ws =>
    (if w.speaker.getD "UNKNOWN" = s then 0 else 1)
      + changesFrom (w.speaker.getD "UNKNOWN") ws

/-- Number of adjacent pairs with different effective speakers. -/
def speakerChanges : List Word → Nat
  | [] => 0
  | [_] => 0
  | a :: b :: ws =>
    (if b.speaker.getD "UNKNOWN" = a.speaker.getD "UNKNOWN" then 0 else 1)
      + speakerChanges (b :: ws)

theorem runsFrom_length : ∀ (ws : List Word) (s : String) (t0 : ℚ) (p : List String),
    (runsFrom s t0 p ws).length = 1 + changesFrom s ws := by
  intro ws
  induction ws with
  | nil => intro s t0 p; rfl
  | cons w ws ih =>
    intro s t0 p
    by_cases hs : w.speaker.getD "UNKNOWN" = s
    · show (if w.speaker.getD "UNKNOWN" = s then
          runsFrom s t0 (p ++ [pyStrip (w.text.getD "")]) ws
        else _).length = 1 + ((if w.speaker.getD "UNKNOWN" = s then 0 else 1)
          + changesFrom (w.speaker.getD "UNKNOWN") ws)
      rw [if_pos hs, if_pos hs, ih, hs]
      omega
    · show (if w.speaker.getD "UNKNOWN" = s then _
        else runCore s t0 p
          :: runsFrom (w.speaker.getD "UNKNOWN") (w.start.getD 0)
               [pyStrip (w.text.getD "")] ws).length
        = 1 + ((if w.speaker.getD "UNKNOWN" = s then 0 else 1)
          + changesFrom (w.speaker.getD "UNKNOWN") ws)
      rw [if_neg hs, if_neg hs, List.length_cons, ih]
      omega

theorem changesFrom_eq_speakerChanges : ∀ (ws : List Word) (a : Word),
    changesFrom (a.speaker.getD "UNKNOWN") ws = speakerChanges (a :: ws) := by
  intro ws
  induction ws with
  | nil => intro a; rfl
  | cons b ws ih =>
    intro a
    show (if b.speaker.getD "UNKNOWN" = a.speaker.getD "UNKNOWN" then 0 else 1)
        + changesFrom (b.speaker.getD "UNKNOWN") ws = _
    rw [ih b]
    rfl

/-- Exactly one paragraph per speaker change: a nonempty blank-free word
sequence yields `1 + speakerChanges` paragraphs, so consecutive same-speaker
words (and segments) contribute zero separators. -/
theorem dialogueCores_length (ws : List Word) (h : ws ≠ []) :
    (dialogueCores ws).length = 1 + speakerChanges ws := by
  cases ws with
  | nil => exact absurd rfl h
  | cons w ws' =>
    show (runsFrom (w.speaker.getD "UNKNOWN") (w.start.getD 0)
        [pyStrip (w.text.getD "")] ws').length = _
    rw [runsFrom_length, changesFrom_eq_speakerChanges ws' w]

/-- A turn opened by a word with no speaker is labeled `**UNKNOWN**`. -/
theorem runCore_unknown (w : Word) (t0 : ℚ) (p : List String)
    (h : w.speaker = none) :
    runCore (w.speaker.getD "UNKNOWN") t0 p
      = "[" ++ format_timestamp t0 ++ "] **UNKNOWN**: "
          ++ String.intercalate " " p := by
  rw [h]
  show "[" ++ format_timestamp t0 ++ "] " ++ speaker_label (some "UNKNOWN") ++ ": "
      ++ String.intercalate " " p = _
  rw [show speaker_label (some "UNKNOWN") = "**UNKNOWN**" from rfl,
    string_append_assoc ("[" ++ format_timestamp t0) "] " "**UNKNOWN**",
    string_append_assoc ("[" ++ format_timestamp t0) ("] " ++ "**UNKNOWN**") ": ",
    show ("] " ++ "**UNKNOWN**" ++ ": " : String) = "] **UNKNOWN**: " from by decide]

/-- Claim C3, amended: Every dialogue turn — the first included — is preceded
by exactly two blank lines and followed by one (the line structure below);
the dialogue is exactly one paragraph per maximal run of equal effective
speakers among the blank-free words, valid for arbitrary mixed-speaker
sequences (`turnCores = dialogueCores`): same-speaker words and segments are
merged into a single paragraph with zero separators, each speaker change
opens exactly one new paragraph (`1 + speakerChanges` paragraphs in total),
and a turn opened by a word with no speaker is labeled `**UNKNOWN**`. -/
theorem c3_amended (t : Transcript)
    (hw : ∀ w ∈ flatWords t.segments,
      nlFree (w.text.getD "") ∧ nlFree (w.speaker.getD "UNKNOWN"))
    (hlang : nlFree (t.language.getD "N/A")) :
    (docLines (write_markdown t)
      = ["# Transcript", ""]
        ++ (turnCores t.segments).flatMap (fun c => ["", c, ""])
        ++ ["", "---", "", "", "## Metadata", "",
            "- Total segments: " ++ natRepr t.segments.length, "",
            "- Duration: " ++ durationField t.segments, "",
            "- Language: " ++ t.language.getD "N/A", ""])
    ∧ turnCores t.segments
        = dialogueCores
            ((flatWords t.segments).filter fun w => pyStrip (w.text.getD "") ≠ "")
    ∧ (∀ ws : List Word, ws ≠ [] →
        (dialogueCores ws).length = 1 + speakerChanges ws)
    ∧ (∀ (w : Word) (t0 : ℚ) (p : List String), w.speaker = none →
        runCore (w.speaker.getD "UNKNOWN") t0 p
          = "[" ++ format_timestamp t0 ++ "] **UNKNOWN**: "
              ++ String.intercalate " " p) :=
  ⟨docLines_write_markdown t hw hlang,
   turnCores_eq_dialogueCores t.segments,
   dialogueCores_length,
   fun w t0 p h => runCore_unknown w t0 p h⟩

/-- Mixed-speaker fixture: two same-speaker words in consecutive segments,
one word with no speaker at all, then a different speaker. -/
def tC3W : Transcript :=
  { segments :=
      [{ stop := 2, words := [{ speaker := some "S1", text := some "hi", start := some 0 }] },
       { stop := 3, words := [{ speaker := some "S1", text := some "there", start := some 1 }] },
       { stop := 4, words := [{ text := some "hm", start := some 2 }] },
       { stop := 6, words := [{ speaker := some "S2", text := some "yo", start := some 5 }] }] }

set_option maxRecDepth 8000 in
unseal Rat.mul Rat.inv Rat.add Rat.sub in
theorem c3_amended_witness :
    ((docLines (write_markdown tC3W)
      = ["# Transcript", ""]
        ++ (turnCores tC3W.segments).flatMap (fun c => ["", c, ""])
        ++ ["", "---", "", "", "## Metadata", "",
            "- Total segments: " ++ natRepr tC3W.segments.length, "",
            "- Duration: " ++ durationField tC3W.segments, "",
            "- Language: " ++ tC3W.language.getD "N/A", ""])
    ∧ turnCores tC3W.segments
        = dialogueCores
            ((flatWords tC3W.segments).filter fun w => pyStrip (w.text.getD "") ≠ "")
    ∧ (∀ ws : List Word, ws ≠ [] →
        (dialogueCores ws).length = 1 + speakerChanges ws)
    ∧ (∀ (w : Word) (t0 : ℚ) (p : List String), w.speaker = none →
        runCore (w.speaker.getD "UNKNOWN") t0 p
          = "[" ++ format_timestamp t0 ++ "] **UNKNOWN**: "
              ++ String.intercalate " " p))
    ∧ turnCores tC3W.segments
        = ["[00:00] **S1**: hi there", "[00:02] **UNKNOWN**: hm", "[00:05] **S2**: yo"]
    ∧ speakerChanges
        ((flatWords tC3W.segments).filter fun w => pyStrip (w.text.getD "") ≠ "") = 2
    ∧ (turnCores tC3W.segments).length = 1 + 2 :=
  ⟨c3_amended tC3W (by decide) (by decide), by decide, by decide, by decide⟩

end Worker
